import Mathlib

/-!
Shallow embedding of the `descriptor-chain` TypeScript package
(`src/lib/descriptor-chain-base.abstract.ts` and
`src/lib/descriptor-chain.class.ts`).

The stateful chain (`DescriptorChainBase`, completed by the
`DescriptorChain` subclass whose only addition is `add = data.push`)
stores a JavaScript array of wrapped property descriptors, a numeric
cursor `#currentIndex`, the `#active` / `#enabled` flags and the bound
`(object, key)` pair.  The minimal `DescriptorChain` variant that
implements the core contract directly has identical bodies for every
operation modelled here (its `active`/`enabled` getters are the constants
`false`, which none of the modelled operations read or write).

JavaScript array semantics that matter and are modelled explicitly:
* reading `a[i]` out of range (or at a hole) yields `undefined`
  (modelled as `none`; storage is a `List (Option Snapshot)` where
  `none` is a hole);
* writing `a[i] = v` with `i >= a.length` grows the array to length
  `i + 1`, leaving holes in between; writing with a negative `i`
  creates a non-index property and leaves the element sequence
  unchanged;
* `a.splice(i, 1)` clamps a negative `i` to `max(length + i, 0)` and a
  non-negative `i` to `min(i, length)`, then removes the element at the
  clamped position when one exists;
* the object spread `{...a, ...b}` keeps every field of `b` that is
  present and falls back to `a`'s field otherwise; spreading
  `undefined` contributes nothing.

The descriptor type is opaque to the chain (the spec: "the core never
inspects its fields; it only stores, copies, and merges them"); it is
modelled as a record of optional fields (a field that is `none` is
absent from the JavaScript object) so that the spread merge of
`update` is field-wise faithful.
-/

/-- A wrapped property descriptor: an opaque record of a property value
plus attribute flags, each field possibly absent.  Stands for the
`WrappedPropertyDescriptor` objects the chain stores. -/
structure Snapshot where
  value : Option Int
  writable : Option Bool
  enumerable : Option Bool
  configurable : Option Bool
deriving DecidableEq, Repr

/-- Field-wise JavaScript spread merge `{...prior, ...v}` where `prior`
may be `undefined` (`none`): a field present on `v` wins, a field absent
from `v` falls back to `prior`'s field; spreading `undefined`
contributes nothing, so the result is `v` itself. -/
def mergeSnap (prior : Option Snapshot) (v : Snapshot) : Snapshot :=
  match prior with
  | none => v
  | some p =>
      { value := v.value.or p.value
        writable := v.writable.or p.writable
        enumerable := v.enumerable.or p.enumerable
        configurable := v.configurable.or p.configurable }

/-- JavaScript indexed read `a[i]`: `undefined` (`none`) for a negative
index, an out-of-range index, or a hole. -/
def arrGet (data : List (Option Snapshot)) (i : Int) : Option Snapshot :=
  if i < 0 then none else data.getD i.toNat none

/-- JavaScript indexed write `a[i] = v` for the element sequence: a
negative index creates a non-index property (sequence unchanged), an
in-range index overwrites, and an index past the end grows the array to
length `i + 1` with holes in between. -/
def arrWrite (data : List (Option Snapshot)) (i : Int) (v : Snapshot) :
    List (Option Snapshot) :=
  if i < 0 then data
  else if i.toNat < data.length then data.set i.toNat (some v)
  else data ++ List.replicate (i.toNat - data.length) none ++ [some v]

/-- The clamped start position of `a.splice(i, 1)` on an array of length
`len`: `max(len + i, 0)` for negative `i`, `min(i, len)` otherwise. -/
def spliceStart (len : Nat) (i : Int) : Nat :=
  if i < 0 then (max ((len : Int) + i) 0).toNat else min i.toNat len

/-- The state of a `DescriptorChainBase` instance (as completed by the
`DescriptorChain` subclass): `#active`, `#enabled`, `#currentIndex`,
`#data`, `#key`, `#object`.  The stored `#descriptor` constructor
reference is never invoked by any operation and is omitted.  The object
is an opaque reference modelled by an integer identity; the key is the
property name. -/
structure Chain where
  active : Bool
  enabled : Bool
  currentIndex : Int
  data : List (Option Snapshot)
  key : String
  object : Int
deriving DecidableEq, Repr

namespace Chain

/-- The constructor: binds `(object, key)`, with `#active = true`,
`#enabled = true`, `#currentIndex = 0` and empty `#data`. -/
def mk' (object : Int) (key : String) : Chain :=
  { active := true, enabled := true, currentIndex := 0, data := [],
    key := key, object := object }

/-- `size` getter: `this.#data.length`. -/
def size (c : Chain) : Nat :=
  c.data.length

/-- `lastIndex` getter: `this.#data.length - 1` (JavaScript number
arithmetic, so `-1` on an empty chain). -/
def lastIndex (c : Chain) : Int :=
  (c.data.length : Int) - 1

/-- `nextIndex` getter: `typeof currentIndex === 'number' ?
currentIndex + 1 : undefined`; the field `#currentIndex` is typed
`number` and always holds one, so the guard is always true. -/
def nextIndex (c : Chain) : Option Int :=
  some (c.currentIndex + 1)

/-- `previousIndex` getter, mirroring `nextIndex` with `- 1`. -/
def previousIndex (c : Chain) : Option Int :=
  some (c.currentIndex - 1)

/-- `current` getter: `this.#data[this.currentIndex]`. -/
def current (c : Chain) : Option Snapshot :=
  arrGet c.data c.currentIndex

/-- `next` getter: `typeof nextIndex === 'number' ? this.#data[nextIndex]
: undefined`. -/
def next (c : Chain) : Option Snapshot :=
  match c.nextIndex with
  | some i => arrGet c.data i
  | none => none

/-- `previous` getter, mirroring `next`. -/
def previous (c : Chain) : Option Snapshot :=
  match c.previousIndex with
  | some i => arrGet c.data i
  | none => none

/-- `add(descriptor)`: `this.#data.push(descriptor)` (the concrete
subclass's implementation, also the one `load` reaches). -/
def add (c : Chain) (d : Snapshot) : Chain :=
  { c with data := c.data ++ [some d] }

/-- `clear()`: `this.#data.length = 0` — empties the array and touches
nothing else. -/
def clear (c : Chain) : Chain :=
  { c with data := [] }

/-- `delete(index)`: `this.#data.splice(index, 1)`. -/
def delete (c : Chain) (i : Int) : Chain :=
  { c with data := c.data.eraseIdx (spliceStart c.data.length i) }

/-- `set(index, value)`: `this.#data[index] = value`. -/
def set (c : Chain) (i : Int) (v : Snapshot) : Chain :=
  { c with data := arrWrite c.data i v }

/-- `update(index, value)`: `this.#data[index] = {...this.#data[index],
...value}`. -/
def update (c : Chain) (i : Int) (v : Snapshot) : Chain :=
  { c with data := arrWrite c.data i (mergeSnap (arrGet c.data i) v) }

/-- `get(index)`: `this.#data[index]`. -/
def get (c : Chain) (i : Int) : Option Snapshot :=
  arrGet c.data i

/-- `has(index)`: `index >= 0 && index < this.#data.length`. -/
def has (c : Chain) (i : Int) : Bool :=
  decide (0 ≤ i) && decide (i < (c.data.length : Int))

/-- `setCurrentIndex(index)`: `this.#currentIndex = index`, no bounds
validation, never throws (a total assignment). -/
def setCurrentIndex (c : Chain) (i : Int) : Chain :=
  { c with currentIndex := i }

/-- `first()`: `this.#data[0]`. -/
def first (c : Chain) : Option Snapshot :=
  arrGet c.data 0

/-- `last()`: `this.#data[this.lastIndex]`. -/
def last (c : Chain) : Option Snapshot :=
  arrGet c.data c.lastIndex

/-- `entries()`: `this.#data.entries()` — the `[index, element]` pairs of
the array in index order (holes included, as `undefined`). -/
def entries (c : Chain) : List (Nat × Option Snapshot) :=
  c.data.enum

/-- `values()`: `this.#data.values()` — the elements of the array in
index order (holes included, as `undefined`). -/
def values (c : Chain) : List (Option Snapshot) :=
  c.data

/-- `activate()`: `this.#active = true`. -/
def activate (c : Chain) : Chain :=
  { c with active := true }

/-- `deactivate()`: `this.#active = false`. -/
def deactivate (c : Chain) : Chain :=
  { c with active := false }

/-- `enable()`: `this.#enabled = true`. -/
def enable (c : Chain) : Chain :=
  { c with enabled := true }

/-- `disable()`: `this.#enabled = false`. -/
def disable (c : Chain) : Chain :=
  { c with enabled := false }

/-- The message of the error `load()` throws when the descriptor source
reports no snapshot for the bound key. -/
def notFoundMsg (key : String) : String :=
  "Descriptor not found for key: " ++ key

/-- `load()`: queries the external descriptor source
(`Descriptor.fromProperty(this.#object, this.#key)`, an external
collaborator) exactly once, then either appends the returned snapshot
via `add` or throws before any mutation.  The source is modelled as the
oracle `fetch` answering the `calls`-th query, and the call counter is
threaded through so that "queried exactly once" is provable; the first
component is the thrown error (`none` on success), the second the
chain state observed by the caller afterwards. -/
def load (fetch : Nat → Option Snapshot) (calls : Nat) (c : Chain) :
    Option String × Chain × Nat :=
  match fetch calls with
  | some d => (none, c.add d, calls + 1)
  | none => (some (notFoundMsg c.key), c, calls + 1)

end Chain

/-- One call in a mutation history: an `add` with a snapshot, a `load`
together with the descriptor source's response to its single query, or
a `delete` at an index. -/
inductive Op where
  | addSnap (d : Snapshot)
  | loadSnap (r : Option Snapshot)
  | delAt (i : Int)

/-- Apply one call to the chain: `add` pushes, a `load` answered with a
snapshot pushes it (its throwing branch mutates nothing), `delete`
splices. -/
def applyOp (c : Chain) (op : Op) : Chain :=
  match op with
  | .addSnap d => c.add d
  | .loadSnap (some d) => c.add d
  | .loadSnap none => c
  | .delAt i => c.delete i

/-- Whether the call is a successful `add`/`load`: `add` always
succeeds, `load` succeeds when the source answered. -/
def isSuccAddLoad (op : Op) : Bool :=
  match op with
  | .addSnap _ => true
  | .loadSnap r => r.isSome
  | .delAt _ => false

/-- Whether the call is an element-removing `delete` in the given
state: `splice`'s clamped start position hits an existing element. -/
def removesAt (c : Chain) (op : Op) : Bool :=
  match op with
  | .delAt i => decide (spliceStart c.data.length i < c.data.length)
  | _ => false

/-- Run a history of calls, returning the final chain, the number of
successful `add`/`load` calls and the number of element-removing
`delete` calls. -/
def runOps : Chain → List Op → Chain × Nat × Nat
  | c, [] => (c, 0, 0)
  | c, op :: ops =>
      ((runOps (applyOp c op) ops).1,
       (runOps (applyOp c op) ops).2.1 + (if isSuccAddLoad op then 1 else 0),
       (runOps (applyOp c op) ops).2.2 + (if removesAt c op then 1 else 0))

/-- A sample snapshot used to instantiate universally quantified
statements. -/
def sA : Snapshot := ⟨some 1, some true, some true, some true⟩

/-- A second sample snapshot. -/
def sB : Snapshot := ⟨some 2, some false, some true, some false⟩

/-- A third sample snapshot, with some fields absent. -/
def sC : Snapshot := ⟨some 3, none, some false, none⟩

/-- A sample chain of size 2, built by two `add` calls on a fresh
chain. -/
def sampleChain2 : Chain := ((Chain.mk' 0 "k").add sA).add sB

/-- A sample chain of size 1. -/
def sampleChain1 : Chain := (Chain.mk' 0 "a").add sA

/-- Indexed read at a natural-number index is `List.getD`. -/
theorem arrGet_natCast (data : List (Option Snapshot)) (i : Nat) :
    arrGet data (i : Int) = data.getD i none := by
  simp [arrGet]

/-- Indexed read past the end of the array is the absent value. -/
theorem arrGet_eq_none_of_le (data : List (Option Snapshot)) (i : Nat)
    (h : data.length ≤ i) : arrGet data (i : Int) = none := by
  rw [arrGet_natCast, List.getD_eq_default _ _ h]

/-- Indexed write at an in-range index is `List.set`. -/
theorem arrWrite_of_lt (data : List (Option Snapshot)) (i : Nat)
    (v : Snapshot) (h : i < data.length) :
    arrWrite data (i : Int) v = data.set i (some v) := by
  simp [arrWrite, h]

/-- Indexed write past the end appends holes then the value. -/
theorem arrWrite_of_le (data : List (Option Snapshot)) (i : Nat)
    (v : Snapshot) (h : data.length ≤ i) :
    arrWrite data (i : Int) v =
      data ++ List.replicate (i - data.length) none ++ [some v] := by
  have : ¬ i < data.length := by omega
  simp [arrWrite, this]

/-- Reading back an in-range write returns the written value. -/
theorem arrGet_set_self (data : List (Option Snapshot)) (i : Nat)
    (x : Snapshot) (h : i < data.length) :
    arrGet (data.set i (some x)) (i : Int) = some x := by
  rw [arrGet_natCast]
  simp [List.getD, List.getElem?_set_self, h]

/-- A successful indexed read implies the index is in range. -/
theorem lt_length_of_arrGet_some (data : List (Option Snapshot)) (i : Nat)
    (p : Snapshot) (h : arrGet data (i : Int) = some p) :
    i < data.length := by
  by_contra hge
  rw [arrGet_eq_none_of_le data i (by omega)] at h
  exact Option.noConfusion h

/-- Merging the same value twice is the same as merging it once. -/
theorem mergeSnap_idem (p v : Snapshot) :
    mergeSnap (some (mergeSnap (some p) v)) v = mergeSnap (some p) v := by
  simp [mergeSnap, ← Option.or_assoc, Option.or_self]

/-- C1: `load()` queries the descriptor source exactly once (the call
counter advances by exactly 1); when the source returns a snapshot, it
is appended via `add` (size grows by 1) and no error is thrown; when
the source reports no snapshot, the thrown error names the key and the
chain — sequence, cursor and flags — is left unchanged. -/
theorem C1_load (fetch : Nat → Option Snapshot) (calls : Nat) (c : Chain) :
    (Chain.load fetch calls c).2.2 = calls + 1 ∧
    (∀ d, fetch calls = some d →
      (Chain.load fetch calls c).1 = none ∧
      (Chain.load fetch calls c).2.1 = c.add d ∧
      (Chain.load fetch calls c).2.1.size = c.size + 1) ∧
    (fetch calls = none →
      (Chain.load fetch calls c).1 = some (Chain.notFoundMsg c.key) ∧
      (Chain.load fetch calls c).2.1 = c) := by
  cases hf : fetch calls with
  | some d => simp [Chain.load, hf, Chain.add, Chain.size]
  | none => simp [Chain.load, hf]

/-- Witness for C1 with a source that answers and one that does not. -/
theorem C1_witness :
    (Chain.load (fun _ => some sA) 0 sampleChain1).2.2 = 0 + 1 ∧
    (Chain.load (fun _ => some sA) 0 sampleChain1).2.1.size =
      sampleChain1.size + 1 ∧
    (Chain.load (fun _ => none) 0 sampleChain1).1 =
      some (Chain.notFoundMsg sampleChain1.key) ∧
    (Chain.load (fun _ => none) 0 sampleChain1).2.1 = sampleChain1 :=
  ⟨(C1_load (fun _ => some sA) 0 sampleChain1).1,
   ((C1_load (fun _ => some sA) 0 sampleChain1).2.1 sA rfl).2.2,
   ((C1_load (fun _ => none) 0 sampleChain1).2.2 rfl).1,
   ((C1_load (fun _ => none) 0 sampleChain1).2.2 rfl).2⟩

/-- C4: for an in-range index holding a prior snapshot `p`,
`update(i, value)` stores a snapshot whose fields present on `value`
take `value`'s field values and whose fields absent from `value` keep
`p`'s values, and applying the same `update` twice equals applying it
once. -/
theorem C4_update_merge (c : Chain) (i : Nat) (v p : Snapshot)
    (h : c.get (i : Int) = some p) :
    (∃ m, (c.update (i : Int) v).get (i : Int) = some m ∧
      (∀ x, v.value = some x → m.value = some x) ∧
      (v.value = none → m.value = p.value) ∧
      (∀ x, v.writable = some x → m.writable = some x) ∧
      (v.writable = none → m.writable = p.writable) ∧
      (∀ x, v.enumerable = some x → m.enumerable = some x) ∧
      (v.enumerable = none → m.enumerable = p.enumerable) ∧
      (∀ x, v.configurable = some x → m.configurable = some x) ∧
      (v.configurable = none → m.configurable = p.configurable)) ∧
    (c.update (i : Int) v).update (i : Int) v = c.update (i : Int) v := by
  have hget : arrGet c.data (i : Int) = some p := h
  have hlt : i < c.data.length := lt_length_of_arrGet_some _ _ _ hget
  have hdata : (c.update (i : Int) v).data =
      c.data.set i (some (mergeSnap (some p) v)) := by
    show arrWrite c.data (i : Int) (mergeSnap (arrGet c.data (i : Int)) v) = _
    rw [hget, arrWrite_of_lt _ _ _ hlt]
  have hget' : arrGet (c.update (i : Int) v).data (i : Int) =
      some (mergeSnap (some p) v) := by
    rw [hdata]
    exact arrGet_set_self _ _ _ hlt
  constructor
  · refine ⟨mergeSnap (some p) v, hget', ?_, ?_, ?_, ?_, ?_, ?_, ?_, ?_⟩
    · intro x hx
      simp [mergeSnap, hx]
    · intro hx
      simp [mergeSnap, hx]
    · intro x hx
      simp [mergeSnap, hx]
    · intro hx
      simp [mergeSnap, hx]
    · intro x hx
      simp [mergeSnap, hx]
    · intro hx
      simp [mergeSnap, hx]
    · intro x hx
      simp [mergeSnap, hx]
    · intro hx
      simp [mergeSnap, hx]
  · have hlt' : i < (c.update (i : Int) v).data.length := by
      rw [hdata]
      simpa using hlt
    have hX : arrWrite (c.update (i : Int) v).data (i : Int)
        (mergeSnap (arrGet (c.update (i : Int) v).data (i : Int)) v) =
        (c.update (i : Int) v).data := by
      rw [hget', mergeSnap_idem, hdata, arrWrite_of_lt _ _ _ (by simpa using hlt),
        List.set_set]
    show { c.update (i : Int) v with
      data := arrWrite (c.update (i : Int) v).data (i : Int)
        (mergeSnap (arrGet (c.update (i : Int) v).data (i : Int)) v) } =
        c.update (i : Int) v
    rw [hX]

/-- Witness for C4: idempotence of a concrete in-range `update`. -/
theorem C4_witness :
    (sampleChain2.update ((1 : Nat) : Int) sC).update ((1 : Nat) : Int) sC =
      sampleChain2.update ((1 : Nat) : Int) sC :=
  (C4_update_merge sampleChain2 1 sC sB (by decide)).2

/-- C9: `update(i, value)` at an index `i >= size` is not a no-op: it
grows storage to length `i + 1`, leaving holes at the intervening
indices and storing a copy of `value`'s fields at `i` (the merge with
an absent entry is `value` itself), exactly like an out-of-range
`set`. -/
theorem C9_update_out_of_range (c : Chain) (i : Nat) (v : Snapshot)
    (h : c.data.length ≤ i) :
    (c.update (i : Int) v).data =
      c.data ++ List.replicate (i - c.data.length) none ++ [some v] ∧
    (c.update (i : Int) v).size = i + 1 ∧
    (c.update (i : Int) v).data = (c.set (i : Int) v).data := by
  have hget : arrGet c.data (i : Int) = none := arrGet_eq_none_of_le _ _ h
  have h1 : (c.update (i : Int) v).data =
      c.data ++ List.replicate (i - c.data.length) none ++ [some v] := by
    show arrWrite c.data (i : Int) (mergeSnap (arrGet c.data (i : Int)) v) = _
    rw [hget]
    exact arrWrite_of_le _ _ _ h
  refine ⟨h1, ?_, ?_⟩
  · show (c.update (i : Int) v).data.length = i + 1
    rw [h1]
    simp
    omega
  · rw [h1]
    show _ = arrWrite c.data (i : Int) v
    rw [arrWrite_of_le _ _ _ h]

/-- Witness for C9 at a concrete size-1 chain and index 3. -/
theorem C9_witness :
    (sampleChain1.update ((3 : Nat) : Int) sB).data =
      sampleChain1.data ++
        List.replicate (3 - sampleChain1.data.length) none ++ [some sB] ∧
    (sampleChain1.update ((3 : Nat) : Int) sB).size = 3 + 1 ∧
    (sampleChain1.update ((3 : Nat) : Int) sB).data =
      (sampleChain1.set ((3 : Nat) : Int) sB).data :=
  C9_update_out_of_range sampleChain1 3 sB (by decide)

/-- C10: `clear()` empties only the snapshot sequence: afterwards
`size = 0`, while `currentIndex`, `active`, `enabled`, `key` and
`object` all retain the values they had immediately before the call (in
particular the cursor is not reset to 0). -/
theorem C10_clear_frame (c : Chain) :
    c.clear.size = 0 ∧ c.clear.currentIndex = c.currentIndex ∧
    c.clear.active = c.active ∧ c.clear.enabled = c.enabled ∧
    c.clear.key = c.key ∧ c.clear.object = c.object :=
  ⟨rfl, rfl, rfl, rfl, rfl, rfl⟩

/-- C8: `setCurrentIndex(index)` stores any integer index without
bounds validation and raises no error (it is a total assignment that
touches nothing but the cursor); on a chain of size 2, after
`setCurrentIndex(5)` reading `current` yields the absent value rather
than raising, and `has(5)` returns `false`. -/
theorem C8_setCurrentIndex_unvalidated (c : Chain) (i : Int) :
    ((c.setCurrentIndex i).currentIndex = i ∧
     (c.setCurrentIndex i).data = c.data ∧
     (c.setCurrentIndex i).active = c.active ∧
     (c.setCurrentIndex i).enabled = c.enabled) ∧
    (c.size = 2 →
      (c.setCurrentIndex 5).current = none ∧
      (c.setCurrentIndex 5).has 5 = false) := by
  refine ⟨⟨rfl, rfl, rfl, rfl⟩, fun h => ⟨?_, ?_⟩⟩
  · have hlen : c.data.length = 2 := h
    have : arrGet c.data 5 = none := by
      rw [arrGet, if_neg (by omega)]
      rw [List.getD_eq_default]
      omega
    simpa [Chain.current, Chain.setCurrentIndex] using this
  · have hlen : c.data.length = 2 := h
    simp [Chain.has, Chain.setCurrentIndex, hlen]

/-- Witness for C8 at a concrete size-2 chain. -/
theorem C8_witness :
    (sampleChain2.setCurrentIndex 5).currentIndex = 5 ∧
    (sampleChain2.setCurrentIndex 5).current = none ∧
    (sampleChain2.setCurrentIndex 5).has 5 = false := by
  have h := C8_setCurrentIndex_unvalidated sampleChain2 5
  exact ⟨h.1.1, (h.2 (by decide)).1, (h.2 (by decide)).2⟩

/-- C5: on a chain holding `S0, S1, S2` in that order, `delete(1)`
removes exactly the middle snapshot and shifts the rest down, leaving
no hole: afterwards `size = 2`, `get(0) = S0` and `get(1)` is the
former `S2`. -/
theorem C5_delete_middle (c : Chain) (S0 S1 S2 : Snapshot)
    (h : c.data = [some S0, some S1, some S2]) :
    (c.delete 1).size = 2 ∧ (c.delete 1).get 0 = some S0 ∧
    (c.delete 1).get 1 = some S2 := by
  simp [Chain.delete, Chain.size, Chain.get, h, spliceStart, arrGet,
    List.eraseIdx]

/-- Witness for C5 at a concrete chain built by three `add` calls. -/
theorem C5_witness :
    ((((Chain.mk' 0 "k").add sA).add sB).add sC |>.delete 1).size = 2 ∧
    ((((Chain.mk' 0 "k").add sA).add sB).add sC |>.delete 1).get 0 = some sA ∧
    ((((Chain.mk' 0 "k").add sA).add sB).add sC |>.delete 1).get 1 = some sC :=
  C5_delete_middle ((((Chain.mk' 0 "k").add sA).add sB).add sC) sA sB sC rfl

/-- C3 is false on the code: on a one-snapshot chain whose cursor is
present (`current` is a stored snapshot) and sits at the last index,
`next` is the absent value, because `#currentIndex` is always a number
and `#data[currentIndex + 1]` is an out-of-range JavaScript read. -/
theorem C3_counterexample :
    (sampleChain1.currentIndex = sampleChain1.lastIndex ∧
     sampleChain1.current = some sA) ∧
    sampleChain1.next = none := by
  decide

/-- C3 amended: `next` equals the element stored at `cursorIndex + 1`
under JavaScript indexed read, so it is absent whenever
`cursorIndex + 1` is out of range; the explicit undefined branch for a
non-number cursor is never taken since `#currentIndex` always holds a
number.  In particular, when the cursor sits at the last snapshot,
`next` IS undefined. -/
theorem C3_next_amended (c : Chain) :
    c.next = arrGet c.data (c.currentIndex + 1) ∧
    (c.currentIndex = c.lastIndex → c.next = none) := by
  refine ⟨rfl, fun h => ?_⟩
  have h1 : c.currentIndex + 1 = (c.data.length : Int) := by
    simp [Chain.lastIndex] at h
    omega
  simp [Chain.next, Chain.nextIndex, h1, arrGet, List.getD_eq_default]

/-- Witness for C3's amended statement at a concrete chain whose cursor
sits at the last snapshot. -/
theorem C3_amended_witness :
    sampleChain1.next = arrGet sampleChain1.data
      (sampleChain1.currentIndex + 1) ∧
    sampleChain1.next = none := by
  have h := C3_next_amended sampleChain1
  exact ⟨h.1, h.2 (by decide)⟩

/-- C2 is false on the code for negative indices: on a one-snapshot
chain, `has(-1)` is `false`, yet `delete(-1)` removes the last element
(JavaScript `splice` interprets a negative start relative to the end),
so the snapshot sequence is changed. -/
theorem C2_counterexample :
    sampleChain1.has (-1) = false ∧
    sampleChain1.size = 1 ∧
    (sampleChain1.delete (-1)).size = 0 := by
  decide

/-- C2 amended: `delete(index)` raises no error at any index (it is a
total operation); for every index `>= size` it is a no-op leaving the
chain unchanged, but for a negative index — at which `has` is also
`false` — `splice`'s end-relative clamping applies and an element is
removed from every non-empty chain. -/
theorem C2_delete_amended (c : Chain) (i : Int) :
    ((c.data.length : Int) ≤ i → c.delete i = c) ∧
    (i < 0 → 0 < c.data.length → (c.delete i).size = c.size - 1) := by
  constructor
  · intro hle
    have h0 : ¬ i < 0 := by omega
    have hstart : spliceStart c.data.length i = c.data.length := by
      simp [spliceStart, h0]
      omega
    simp [Chain.delete, hstart, List.eraseIdx_of_length_le (le_refl _)]
  · intro hneg hpos
    have hstart : spliceStart c.data.length i < c.data.length := by
      simp [spliceStart, hneg]
      omega
    simp [Chain.delete, Chain.size, List.length_eraseIdx, hstart]

/-- Witness for C2's amended statement: `delete(5)` on a size-1 chain is
a no-op, `delete(-1)` on the same chain removes an element. -/
theorem C2_amended_witness :
    sampleChain1.delete 5 = sampleChain1 ∧
    (sampleChain1.delete (-1)).size = sampleChain1.size - 1 :=
  ⟨(C2_delete_amended sampleChain1 5).1 (by decide),
   (C2_delete_amended sampleChain1 (-1)).2 (by decide) (by decide)⟩

/-- One call changes the size by `+1` for a successful `add`/`load`,
by `-1` for an element-removing `delete`, and by `0` otherwise. -/
theorem applyOp_size (c : Chain) (op : Op) :
    ((applyOp c op).size : Int) =
      (c.size : Int) + (if isSuccAddLoad op then 1 else 0) -
        (if removesAt c op then 1 else 0) := by
  cases op with
  | addSnap d => simp [applyOp, isSuccAddLoad, removesAt, Chain.add, Chain.size]
  | loadSnap r =>
      cases r <;>
        simp [applyOp, isSuccAddLoad, removesAt, Chain.add, Chain.size]
  | delAt i =>
      simp only [applyOp, isSuccAddLoad, removesAt, Chain.delete, Chain.size,
        List.length_eraseIdx]
      by_cases hs : spliceStart c.data.length i < c.data.length
      · simp [hs]
        omega
      · simp [hs]

/-- Over any history the final size is the initial size plus successful
`add`/`load` calls minus element-removing `delete` calls. -/
theorem runOps_size (ops : List Op) :
    ∀ c : Chain, ((runOps c ops).1.size : Int) =
      (c.size : Int) + (runOps c ops).2.1 - (runOps c ops).2.2 := by
  induction ops with
  | nil => intro c; simp [runOps]
  | cons op ops ih =>
      intro c
      have h1 := ih (applyOp c op)
      have h2 := applyOp_size c op
      simp only [runOps]
      push_cast
      omega

/-- C6: after every history of `add`, `load` and `delete` calls on a
freshly constructed chain, `size` equals the number of successful
`add`/`load` calls minus the number of element-removing `delete`
calls, and `size` equals `lastIndex + 1`. -/
theorem C6_size_invariant (ops : List Op) (object : Int) (key : String) :
    ((runOps (Chain.mk' object key) ops).1.size : Int) =
      (runOps (Chain.mk' object key) ops).2.1 -
        ((runOps (Chain.mk' object key) ops).2.2 : Int) ∧
    ((runOps (Chain.mk' object key) ops).1.size : Int) =
      (runOps (Chain.mk' object key) ops).1.lastIndex + 1 := by
  constructor
  · have h := runOps_size ops (Chain.mk' object key)
    simpa [Chain.mk', Chain.size] using h
  · simp [Chain.lastIndex, Chain.size]

/-- C7: `entries()` yields the `[index, element]` pairs of current
storage with indices `0, 1, …, size - 1` in ascending order, and the
element components in that order are exactly the sequence `values()`
yields; both sequences are finite lists of the pure chain state, so
re-invoking either is a fresh, independent iteration producing the same
sequence over current storage. -/
theorem C7_entries_values (c : Chain) :
    c.entries.map Prod.fst = List.range c.size ∧
    List.Sorted (· < ·) (c.entries.map Prod.fst) ∧
    c.entries.map Prod.snd = c.values ∧
    c.entries.length = c.size := by
  refine ⟨?_, ?_, ?_, ?_⟩
  · simp [Chain.entries, Chain.size, List.enum_map_fst]
  · rw [Chain.entries, List.enum_map_fst]
    exact List.sorted_lt_range _
  · simp [Chain.entries, Chain.values, List.enum_map_snd]
  · simp [Chain.entries, Chain.size]
